import Mathlib

/-!
Verification development for the Windows-Collector acquisition engine.

The Go sources under verification are `collector.go` (resolveEnv, Collect,
getFiles) and `volume.go` (GetHandle, GetVolumeHandler, isLetter,
identifyVolumesOfInterest).  Pure computations are embedded directly as Lean
functions.  Effectful collaborators that live outside the two source files
(the registry environment expansion, the MFT record parser, the directory
walker, the API file opener, the result writer) are embedded as outcome
oracles carried in environment records, and the observable effects of
`Collect` (handle opens, queue operations, the synchronization barrier) are
recorded as an explicit event trace.
-/

namespace WindowsCollector

/-- Error values: the Go code wraps errors into strings with fmt.Errorf. -/
abbrev Err := String

/-- One entry of the acquisition request list (Go struct FileToExport). -/
structure FileToExport where
  FullPath : String
  IsFullPathRegex : Bool
  FileName : String
  IsFileNameRegex : Bool
deriving DecidableEq, Repr

/-- Go byte length of a character list (len of the UTF-8 encoded string). -/
def utf8Len (l : List Char) : Nat := (l.map Char.utf8Size).sum

/-!
## resolveEnv (collector.go lines 15-24)

Go mutates the export list in place: each iteration assigns the pair returned
by registry.ExpandString to the FullPath field and the error variable, and on
a non-nil error returns immediately, leaving the remaining entries untouched.
The expansion itself is an external library call, modelled as an oracle
`expand : String -> String x Option Err` mirroring the two-value Go return.
The returned list below is the caller-visible content of the shared slice.
-/

/-- Embedding of resolveEnv: walks the list, overwrites FullPath with the
expanded value, and stops at the first expansion error (the wrapped error
message interpolates the already-overwritten FullPath, as the Go code does). -/
def resolveEnv (expand : String → String × Option Err) :
    List FileToExport → List FileToExport × Option Err
  | [] => ([], none)
  | e :: rest =>
    let v := (expand e.FullPath).1
    let errv := (expand e.FullPath).2
    let e' : FileToExport := { e with FullPath := v }
    match errv with
    | some msg =>
        (e' :: rest, some ("resolving environment variables from " ++ v ++ ": " ++ msg))
    | none =>
        let r := resolveEnv expand rest
        (e' :: r.1, r.2)

/-!
## isLetter and identifyVolumesOfInterest (volume.go lines 75-129)
-/

/-- Embedding of volume.go isLetter.  The Go length check is on the byte
length (len of a Go string counts bytes), so only single-byte code points can
reach the rune test; for code points below 0x80 Go unicode.IsLetter agrees
with ASCII Char.isAlpha, which is what the rune loop reduces to here. -/
def isLetter (s : String) : Except Err Bool :=
  if s.data = [] then
    .error "isLetter() received a null string"
  else if 1 < utf8Len s.data then
    .error ("isLetter() received the string " ++ s ++
      " which is too many letters, function expected a single letter")
  else
    match s.data with
    | [] => .ok false
    | c :: _ => .ok c.isAlpha

/-- The leftmost-longest match of the regular expression excluding the colon
character, a run of one or more non-colon characters (re.FindString of that
pattern): skip any leading colons, then take the maximal colon-free run.
Returns the empty list (FindString returns the empty string) if no match. -/
def findNonColonRun : List Char → List Char
  | [] => []
  | c :: rest =>
      if c = ':' then findNonColonRun rest
      else c :: rest.takeWhile (fun d => decide (d ≠ ':'))

/-- The volume key the Go code computes for one request:
re.FindString applied to strings.ToLower of the full path.  strings.ToLower
is modelled as a character-wise Char.toLower, which agrees with Go on the
ASCII drive letters this function is applied to. -/
def volKey (s : String) : String :=
  String.mk (findNonColonRun (s.data.map Char.toLower))

/-- Loop body of identifyVolumesOfInterest: the inner for-loop over the
tracked volumes is a membership test, and an untracked volume is appended. -/
def trackVolume (volumesOfInterest : List String) (f : FileToExport) : List String :=
  if volKey f.FullPath ∈ volumesOfInterest then volumesOfInterest
  else volumesOfInterest ++ [volKey f.FullPath]

/-- The outer loop of identifyVolumesOfInterest, with the accumulated
volumesOfInterest slice made explicit. -/
def identifyVolumesAux (volumesOfInterest : List String) :
    List FileToExport → Except Err (List String)
  | [] => .ok volumesOfInterest
  | fileToExport :: rest =>
    match isLetter (volKey fileToExport.FullPath) with
    | .error e => .error ("isLetter() returned an error: " ++ e)
    | .ok false =>
        .error ("isLetter() indicated that the full path string " ++
          fileToExport.FullPath ++ " does not start with a letter")
    | .ok true => identifyVolumesAux (trackVolume volumesOfInterest fileToExport) rest

/-- Embedding of identifyVolumesOfInterest (volume.go lines 96-129). -/
def identifyVolumesOfInterest (exportList : List FileToExport) :
    Except Err (List String) :=
  identifyVolumesAux [] exportList

/-!
## Data model for the acquisition pipeline (collector.go lines 64-163)

setupSearchTerms, parseMFTRecord0, findPossibleMatches, confirmFoundFiles,
apiFileReader, rawFileReader and the result writer are code of the repository
that is not among the given source files; they are modelled from the spec, as
collaborator oracles where only their outcome matters to the control flow
under verification.
-/

/-- One search term (Go listOfSearchTerms element): the field read by
getFiles is fileNameString, compared against the lowercase literal. -/
structure SearchTerm where
  fullPathString : String
  fileNameString : String
deriving DecidableEq, Repr

instance : Inhabited SearchTerm := ⟨⟨"", ""⟩⟩

/-- One data run of a run list: a cluster count and a starting cluster. -/
structure DataRun where
  clusterCount : Nat
  startCluster : Int
deriving DecidableEq, Repr

/-- The parse of MFT record 0: the piece getFiles reads is the run list of
the non-resident data attribute
(mftRecord0.DataAttribute.NonResidentDataAttribute.DataRuns). -/
structure MftRecord0 where
  dataRuns : List DataRun
deriving DecidableEq, Repr

/-- A found file (Go struct foundFile): its full path and its data runs. -/
structure FoundFile where
  dataRuns : List DataRun
  fullPath : String
deriving DecidableEq, Repr

/-- The byte source handed to the queue for one file.
raw is rawFileReader(volumeHandler, file): the extent read over the data
runs of the file through the raw volume handle.  api is the OS-level open
of the file by path.  pipe is the consumer end of the io.Pipe fed by the
io.TeeReader installed over the MFT reader. -/
inductive Reader where
  | api (file : FoundFile)
  | raw (file : FoundFile)
  | pipe (source : Reader)
deriving DecidableEq, Repr

/-- Modelled from the spec: the Extent Reader yields run length times
cluster size bytes per run (sparse runs yield that many zero bytes), so a
raw reader carries the total run-list byte length; the directory-tree
builder consumes the MFT stream exactly once, sequentially and fully, so
the tee pipe carries exactly the byte length of its source.  The byte
count of an API reader is filesystem state outside the model. -/
def contentLength (clusterSize : Nat) : Reader → Option Nat
  | .raw file => some ((file.dataRuns.map DataRun.clusterCount).sum * clusterSize)
  | .pipe source => contentLength clusterSize source
  | .api _ => none

/-- One queue element (Go struct fileReader): destination name and source. -/
structure FileReaderEntry where
  fullPath : String
  reader : Reader
deriving DecidableEq, Repr

/-- The decoded volume boot record geometry (external VBR parser output). -/
structure Vbr where
  bytesPerSector : Nat
  sectorsPerCluster : Nat
  mftByteOffset : Int
  clusterSize : Nat
deriving DecidableEq, Repr

/-- The volume handler fields the embedded control flow reads.  The Go
struct also owns the open device descriptor, the current MFT reader and the
last read offset; the descriptor lifecycle is recorded in the event trace
and the reader is threaded explicitly. -/
structure VolumeHandler where
  volumeLetter : String
  vbr : Vbr
deriving DecidableEq, Repr

/-- Modelled from the spec: setupSearchTerms (not among the given sources)
compiles each request of the export list into a search term carrying the
filename-matching piece.  The literals are carried lowercase: getFiles
compares fileNameString with the lowercase literal for the MFT, and the
spec MFT scenario expects the request with FileName a dollar sign followed
by uppercase MFT to trigger that comparison. -/
def setupSearchTerms (exportList : List FileToExport) : List SearchTerm :=
  exportList.map fun f =>
    { fullPathString := String.mk (f.FullPath.data.map Char.toLower)
      fileNameString := String.mk (f.FileName.data.map Char.toLower) }

/-- Outcome of opening one volume and reading its boot record: the open can
fail, the 512-byte read can fail, the VBR parse can fail, or everything
succeeds with the decoded geometry. -/
inductive VolumeOutcome where
  | openFailed (e : Err)
  | readFailed (e : Err)
  | parseFailed (e : Err)
  | ok (vbr : Vbr)
deriving DecidableEq, Repr

/-- A volume outcome that makes GetVolumeHandler return an error. -/
def VolumeOutcome.isFailure : VolumeOutcome → Bool
  | .ok _ => false
  | _ => true

/-- Directory tree handed back by the external directory-tree builder;
opaque to the code under verification, which only passes it on. -/
structure DirectoryTree where
  nodes : List String
deriving DecidableEq, Repr

/-- Possible matches handed back by findPossibleMatches; opaque to the
code under verification, which only passes them on. -/
structure PossibleMatches where
  hits : List String
deriving DecidableEq, Repr

/-- Collaborator outcomes for one getFiles run: the record-0 parse, the
directory walk keyed by the search terms it is given, the confirmation
step, the per-file API open attempt, and the pipe close. -/
structure GetFilesEnv where
  parseMFTRecord0 : Except Err MftRecord0
  findPossibleMatches : List SearchTerm → Except Err (PossibleMatches × DirectoryTree)
  confirmFoundFiles : List SearchTerm → PossibleMatches → DirectoryTree → List FoundFile
  apiOpen : FoundFile → Except Err Unit
  pipeCloseOk : Bool

/-- Observable result of one getFiles run.  queued lists the elements sent
to the fileReaders channel in order; closedChannel records close(fileReaders);
waited records waitForFileCopying.Wait(); termsPassedToWalk records the
search-term slice given to findPossibleMatches (none when the walk is never
reached); result is the returned error. -/
structure GetFilesResult where
  termsPassedToWalk : Option (List SearchTerm)
  queued : List FileReaderEntry
  closedChannel : Bool
  waited : Bool
  result : Option Err
deriving DecidableEq, Repr

/-- The predicate of the MFT search-term scan in getFiles. -/
def mftTermPred (t : SearchTerm) : Bool := t.fileNameString == "$mft"

/-- Index of the first element satisfying p, as the Go for-range loop with
break finds it. -/
def goFindIdx (p : SearchTerm → Bool) : List SearchTerm → Option Nat
  | [] => none
  | t :: rest => if p t then some 0 else (goFindIdx p rest).map (· + 1)

/-- The delete-while-iterating removal in getFiles (collector.go lines
96-106): on the first term whose fileNameString is the MFT literal, the
term is overwritten with the last element of the slice, the slice is
truncated by one, and the loop breaks.  Returns the reduced list and the
areWeCopyingTheMFT flag. -/
def removeMftTerm (l : List SearchTerm) : List SearchTerm × Bool :=
  match goFindIdx mftTermPred l with
  | none => (l, false)
  | some i => ((l.set i (l.getLastD default)).dropLast, true)

/-- The body of the found-files loop (collector.go lines 143-158): try the
API open first; on any error fall back to the raw reader over the data runs
of the file; either way one queue element is produced for the file. -/
def queueEntryFor (env : GetFilesEnv) (file : FoundFile) : FileReaderEntry :=
  match env.apiOpen file with
  | .error _ => { fullPath := file.fullPath, reader := Reader.raw file }
  | .ok _ => { fullPath := file.fullPath, reader := Reader.api file }

/-- The found-files loop over the confirmed files, in order. -/
def fileEntries (env : GetFilesEnv) (foundFiles : List FoundFile) : List FileReaderEntry :=
  foundFiles.map (queueEntryFor env)

/-- Embedding of getFiles (collector.go lines 64-163).  The channel, the
goroutine of the result writer and the wait group are represented by the
queued list and the closedChannel and waited flags; every branch mirrors a
return path of the Go function. -/
def getFiles (env : GetFilesEnv) (vh : VolumeHandler)
    (listOfSearchKeywords : List SearchTerm) : GetFilesResult :=
  match env.parseMFTRecord0 with
  | .error e =>
      { termsPassedToWalk := none, queued := [], closedChannel := false, waited := false
        result := some ("parseMFTRecord0() failed to parse mft record 0 from the volume " ++
          vh.volumeLetter ++ ": " ++ e) }
  | .ok mftRecord0 =>
    let mftFile : FoundFile := { dataRuns := mftRecord0.dataRuns, fullPath := "$mft" }
    let mftReader := Reader.raw mftFile
    let scan := removeMftTerm listOfSearchKeywords
    let keywords := scan.1
    let areWeCopyingTheMFT := scan.2
    if areWeCopyingTheMFT then
      let mftEntry : FileReaderEntry :=
        { fullPath := vh.volumeLetter ++ "__$mft", reader := Reader.pipe mftReader }
      match env.findPossibleMatches keywords with
      | .error e =>
          { termsPassedToWalk := some keywords, queued := [mftEntry]
            closedChannel := false, waited := false
            result := some ("findPossibleMatches() failed: " ++ e) }
      | .ok (pm, dt) =>
        if env.pipeCloseOk then
          let foundFiles := env.confirmFoundFiles keywords pm dt
          { termsPassedToWalk := some keywords
            queued := mftEntry :: fileEntries env foundFiles
            closedChannel := true, waited := true, result := none }
        else
          { termsPassedToWalk := some keywords, queued := [mftEntry]
            closedChannel := false, waited := false
            result := some "failed to close writer pipe" }
    else
      match env.findPossibleMatches keywords with
      | .error e =>
          { termsPassedToWalk := some keywords, queued := []
            closedChannel := false, waited := false
            result := some ("findPossibleMatches() failed: " ++ e) }
      | .ok (pm, dt) =>
        let foundFiles := env.confirmFoundFiles keywords pm dt
        { termsPassedToWalk := some keywords, queued := fileEntries env foundFiles
          closedChannel := true, waited := true, result := none }

/-!
## Collect (collector.go lines 27-62) and its event trace
-/

/-- Observable events of one Collect run.  closedHandle is in the event
vocabulary so that statements about release of the device descriptor can be
made; the given sources contain no call that closes the volume handle. -/
inductive Event where
  | openedHandle (letter : String)
  | closedHandle (letter : String)
  | enqueued (letter : String) (entry : FileReaderEntry)
  | closedQueue (letter : String)
  | waitedForConsumer (letter : String)
deriving DecidableEq, Repr

/-- Collaborator outcomes for one Collect run: the environment expansion,
the per-volume open and boot-record outcome, and the per-volume getFiles
collaborators. -/
structure CollectEnv where
  expand : String → String × Option Err
  volumeEnv : String → VolumeOutcome
  getFilesEnv : String → GetFilesEnv

/-- Result of one Collect run: the caller-visible content of the export
list slice (Go mutates it through the shared backing array), the event
trace, and the returned error. -/
structure CollectResult where
  exportListAfter : List FileToExport
  events : List Event
  error : Option Err
deriving Repr

/-- Embedding of GetVolumeHandler (volume.go lines 50-73): open the volume
(on success the descriptor is now held open, recorded as an event), read
512 bytes, parse the boot record; each failure returns the wrapped error of
that step, and no path closes the descriptor. -/
def GetVolumeHandler (outcome : VolumeOutcome) (volumeLetter : String) :
    List Event × Except Err VolumeHandler :=
  match outcome with
  | .openFailed e =>
      ([], .error ("GetVolumeHandler() failed to get handle to volume " ++
        volumeLetter ++ ": " ++ e))
  | .readFailed e =>
      ([Event.openedHandle volumeLetter],
        .error ("GetVolumeHandler() failed to read the volume boot record on volume " ++
          volumeLetter ++ ": " ++ e))
  | .parseFailed e =>
      ([Event.openedHandle volumeLetter],
        .error ("GetVolumeHandler() failed to parse vbr from volume letter " ++
          volumeLetter ++ ": " ++ e))
  | .ok vbr =>
      ([Event.openedHandle volumeLetter],
        .ok { volumeLetter := volumeLetter, vbr := vbr })

/-- The events of one getFiles run, tagged with the volume letter. -/
def eventsOfGetFiles (letter : String) (r : GetFilesResult) : List Event :=
  r.queued.map (Event.enqueued letter) ++
    (if r.closedChannel then [Event.closedQueue letter] else []) ++
    (if r.waited then [Event.waitedForConsumer letter] else [])

/-- The per-volume loop of Collect (collector.go lines 47-60): get the
volume handler, then run getFiles; either failure wraps the error and
returns it immediately, so the remaining volumes are not attempted.  Go
hands the same search-term slice to every volume; the swap write inside
getFiles aliases that slice across iterations, which this value-passing
model does not track (no claim here involves a second volume reaching
getFiles). -/
def collectVolumes (env : CollectEnv) (searchTerms : List SearchTerm) :
    List String → List Event × Option Err
  | [] => ([], none)
  | volumeLetter :: rest =>
    let opened := GetVolumeHandler (env.volumeEnv volumeLetter) volumeLetter
    match opened.2 with
    | .error e =>
        (opened.1, some ("GetVolumeHandler() failed to get a handle to the volume " ++
          volumeLetter ++ ": " ++ e))
    | .ok vh =>
      let gfr := getFiles (env.getFilesEnv volumeLetter) vh searchTerms
      match gfr.result with
      | some e =>
          (opened.1 ++ eventsOfGetFiles volumeLetter gfr,
            some ("getFiles() failed to get files: " ++ e))
      | none =>
          let tail := collectVolumes env searchTerms rest
          (opened.1 ++ eventsOfGetFiles volumeLetter gfr ++ tail.1, tail.2)

/-- Embedding of Collect (collector.go lines 27-62): expand the environment
variables in place, identify the volumes of interest, build the search
terms, then process the volumes in order.  setupSearchTerms is modelled as
total (the Go error check on it is retained in the source but the spec
gives it no failure mode), so the corresponding return path is not
represented. -/
def Collect (env : CollectEnv) (exportList : List FileToExport) : CollectResult :=
  let resolved := resolveEnv env.expand exportList
  match resolved.2 with
  | some e => { exportListAfter := resolved.1, events := [], error := some e }
  | none =>
    match identifyVolumesOfInterest resolved.1 with
    | .error e =>
        { exportListAfter := resolved.1, events := []
          error := some ("identifyVolumesOfInterest() returned an error: " ++ e) }
    | .ok volumesOfInterest =>
      let searchTerms := setupSearchTerms resolved.1
      let run := collectVolumes env searchTerms volumesOfInterest
      { exportListAfter := resolved.1, events := run.1, error := run.2 }

/-- Modelled from the spec: the result writer (not among the given sources)
drains the queue and writes each dequeued element once to the sink, so once
the queue is closed and the barrier passed the sink entries are exactly the
enqueued elements, in order. -/
def sinkEntries (r : CollectResult) : List FileReaderEntry :=
  r.events.filterMap fun e =>
    match e with
    | .enqueued _ entry => some entry
    | _ => none

/-!
## GetHandle (volume.go lines 33-47)

GetHandle builds one CreateFile call; the observable content of that call is
the request record below.
-/

/-- The parameters GetHandle passes to CreateFile. -/
structure CreateFileRequest where
  dwDesiredAccess : Nat
  dwShareMode : Nat
  dwCreationDisposition : Nat
  dwFlagsAndAttributes : Nat
  devicePath : String
deriving DecidableEq, Repr

/-- The Windows access right granting read access to file data and
attributes (generic read). -/
def GENERIC_READ : Nat := 0x80000000

/-- The Windows access right granting attribute-only read access. -/
def FILE_READ_ATTRIBUTES : Nat := 0x80

/-- Share flag permitting concurrent reads by other processes. -/
def FILE_SHARE_READ : Nat := 0x01

/-- Share flag permitting concurrent writes by other processes. -/
def FILE_SHARE_WRITE : Nat := 0x02

/-- Embedding of the CreateFile request of GetHandle (volume.go lines
33-40): dwDesiredAccess is the literal 0x80000000 from the source (the
adjacent source comment labels it 0x80 FILE_READ_ATTRIBUTES), dwShareMode
is 0x02 bitwise-or 0x01, disposition 0x03 (OPEN_EXISTING), flags 0x00, on
the volume device path. -/
def GetHandleRequest (volumeLetter : String) : CreateFileRequest :=
  { dwDesiredAccess := 0x80000000
    dwShareMode := 0x02 ||| 0x01
    dwCreationDisposition := 0x03
    dwFlagsAndAttributes := 0x00
    devicePath := "\\\\.\\" ++ volumeLetter ++ ":" }

/-!
## Hypothesis vocabulary and concrete environments used by the theorems
-/

/-- The 52 Windows drive-letter characters. -/
def driveLetters : List Char :=
  "abcdefghijklmnopqrstuvwxyzABCDEFGHIJKLMNOPQRSTUVWXYZ".data

/-- The full path begins with a single drive letter followed by a colon. -/
def startsWithDriveLetter (s : String) : Bool :=
  match s.data with
  | c :: d :: _ => decide (c ∈ driveLetters) && decide (d = ':')
  | _ => false

/-- A getFiles collaborator environment in which every step succeeds and
nothing is found. -/
def gfeOK : GetFilesEnv :=
  { parseMFTRecord0 := .ok ⟨[⟨4, 100⟩]⟩
    findPossibleMatches := fun _ => .ok (⟨[]⟩, ⟨[]⟩)
    confirmFoundFiles := fun _ _ _ => []
    apiOpen := fun _ => .ok ()
    pipeCloseOk := true }

/-- A sample decoded boot record: 512-byte sectors, 8 sectors per cluster,
cluster size 4096. -/
def vbrSample : Vbr := ⟨512, 8, 16384, 4096⟩

/-- A sample volume handler for the volume letter c. -/
def vhSample : VolumeHandler := ⟨"c", vbrSample⟩

/-- A getFiles collaborator environment whose record-0 parse fails. -/
def gfeParseFail : GetFilesEnv :=
  { gfeOK with parseMFTRecord0 := .error "mft record 0 is corrupt" }

/-- Collect environment in which expansion fails for exactly one path and
every volume-level collaborator succeeds. -/
def envC1 : CollectEnv :=
  { expand := fun s =>
      if s = "%BAD%:\\x" then ("", some "cannot expand variable BAD") else (s, none)
    volumeEnv := fun _ => .ok vbrSample
    getFilesEnv := fun _ => gfeOK }

/-- An export list whose first request fails expansion and whose second
request expands fine. -/
def listC1 : List FileToExport :=
  [⟨"%BAD%:\\x", false, "x", false⟩, ⟨"C:\\y", false, "y", false⟩]

/-- Collect environment in which opening volume c fails while volume d
opens and parses fine. -/
def envC2 : CollectEnv :=
  { expand := fun s => (s, none)
    volumeEnv := fun letter =>
      if letter = "c" then .openFailed "access denied" else .ok vbrSample
    getFilesEnv := fun _ => gfeOK }

/-- An export list naming the two volumes c and d. -/
def listC2 : List FileToExport :=
  [⟨"C:\\a", false, "a", false⟩, ⟨"D:\\b", false, "b", false⟩]

/-- A confirmed file whose API open will be refused (a locked hive). -/
def fileLocked : FoundFile := ⟨[⟨2, 7⟩], "c:\\windows\\system32\\config\\system"⟩

/-- A confirmed file whose API open succeeds. -/
def fileOpen : FoundFile := ⟨[⟨1, 9⟩], "c:\\users\\x\\ntuser.dat"⟩

/-- getFiles collaborator environment with two confirmed files, the first
of which cannot be opened through the API. -/
def envC6 : GetFilesEnv :=
  { parseMFTRecord0 := .ok ⟨[⟨4, 100⟩]⟩
    findPossibleMatches := fun _ => .ok (⟨["system", "ntuser.dat"]⟩, ⟨["c:\\"]⟩)
    confirmFoundFiles := fun _ _ _ => [fileLocked, fileOpen]
    apiOpen := fun f => if f = fileLocked then .error "sharing violation" else .ok ()
    pipeCloseOk := true }

/-- A search-term list without any MFT term. -/
def termsC6 : List SearchTerm := [⟨"c:\\windows\\system32\\config\\system", "system"⟩]

/-- A search term requesting the MFT itself. -/
def mftTerm7 : SearchTerm := ⟨"c:\\$mft", "$mft"⟩

/-- The Collect environment of the concrete MFT scenario: nothing to
expand, volume c opens with cluster size 4096 (vbrSample), MFT record 0
parses to the single run of length 4 clusters starting at cluster 100
(gfeOK), and no other file is confirmed. -/
def envC5 : CollectEnv :=
  { expand := fun s => (s, none)
    volumeEnv := fun _ => .ok vbrSample
    getFilesEnv := fun _ => gfeOK }

/-- The request list of the concrete MFT scenario. -/
def listC5 : List FileToExport := [⟨"C:\\$MFT", false, "$MFT", false⟩]

/-!
# Theorems
-/

/-- Membership in the events of one GetVolumeHandler call: only an
openedHandle event for that volume is ever emitted. -/
theorem mem_getVolumeHandler_events (o : VolumeOutcome) (letter : String) (e : Event)
    (h : e ∈ (GetVolumeHandler o letter).1) : e = Event.openedHandle letter := by
  cases o <;> simp [GetVolumeHandler] at h <;> exact h

/-- The events of one getFiles run are queue events only: enqueues, the
queue close, and the consumer barrier. -/
theorem mem_eventsOfGetFiles (letter : String) (r : GetFilesResult) (e : Event)
    (h : e ∈ eventsOfGetFiles letter r) :
    (∃ entry, e = Event.enqueued letter entry) ∨ e = Event.closedQueue letter ∨
      e = Event.waitedForConsumer letter := by
  simp only [eventsOfGetFiles, List.mem_append, List.mem_map] at h
  rcases h with (⟨entry, _, rfl⟩ | h) | h
  · exact Or.inl ⟨entry, rfl⟩
  · split at h <;> simp at h
    exact Or.inr (Or.inl h)
  · split at h <;> simp at h
    exact Or.inr (Or.inr h)

/-- No closedHandle event occurs in the per-volume loop. -/
theorem closedHandle_notin_collectVolumes (env : CollectEnv) (terms : List SearchTerm)
    (vols : List String) (letter : String) :
    Event.closedHandle letter ∉ (collectVolumes env terms vols).1 := by
  induction vols with
  | nil => simp [collectVolumes]
  | cons v rest ih =>
    intro hmem
    simp only [collectVolumes] at hmem
    rcases hov : (GetVolumeHandler (env.volumeEnv v) v).2 with e | vh <;>
      rw [hov] at hmem <;> dsimp only at hmem
    · exact absurd (mem_getVolumeHandler_events _ _ _ hmem) (by simp)
    · rcases hgf : (getFiles (env.getFilesEnv v) vh terms).result with _ | e <;>
        rw [hgf] at hmem <;> dsimp only at hmem <;>
        simp only [List.mem_append] at hmem
      · rcases hmem with (h | h) | h
        · exact absurd (mem_getVolumeHandler_events _ _ _ h) (by simp)
        · rcases mem_eventsOfGetFiles _ _ _ h with ⟨_, h'⟩ | h' | h' <;> simp at h'
        · exact ih h
      · rcases hmem with h | h
        · exact absurd (mem_getVolumeHandler_events _ _ _ h) (by simp)
        · rcases mem_eventsOfGetFiles _ _ _ h with ⟨_, h'⟩ | h' | h' <;> simp at h'

/-- Claim C4, as stated, is false on the code: a run that opens the volume
handle and returns never emits a close of that handle.  Concrete input: one
request for volume c, every collaborator succeeding. -/
theorem C4_counterexample :
    Event.openedHandle "c" ∈
      (Collect ⟨fun s => (s, none), fun _ => .ok vbrSample, fun _ => gfeOK⟩
        [⟨"C:\\a", false, "a", false⟩]).events ∧
    Event.closedHandle "c" ∉
      (Collect ⟨fun s => (s, none), fun _ => .ok vbrSample, fun _ => gfeOK⟩
        [⟨"C:\\a", false, "a", false⟩]).events := by
  constructor <;> decide

/-- Claim C4 (corrected): no exit path of Collect closes the volume device
handle; the descriptor opened by GetVolumeHandler is still open when
Collect returns, on every path.  (The claimed guaranteed release does not
exist in the code: neither Collect nor getFiles ever calls Close on the
volume handle.) -/
theorem C4_theorem (env : CollectEnv) (exportList : List FileToExport) (letter : String) :
    Event.closedHandle letter ∉ (Collect env exportList).events := by
  unfold Collect
  rcases hr : (resolveEnv env.expand exportList).2 with _ | e
  · rcases hi : identifyVolumesOfInterest (resolveEnv env.expand exportList).1 with e | vols
    · simp [hr, hi]
    · simp only [hr, hi]
      exact closedHandle_notin_collectVolumes _ _ _ _
  · simp [hr]

/-- Claim C3, as stated, is false on the code: when the parse of MFT record
0 fails, getFiles returns the error without waiting for the sink-writing
consumer (and without closing the queue), so Collect returns while the
consumer goroutine may still be running.  Concrete input: a record-0 parse
failure on volume c. -/
theorem C3_counterexample :
    (getFiles gfeParseFail vhSample []).result ≠ none ∧
    (getFiles gfeParseFail vhSample []).waited = false ∧
    (getFiles gfeParseFail vhSample []).closedChannel = false := by
  refine ⟨?_, by decide, by decide⟩
  decide

/-- Claim C3 (corrected): the producer waits for the sink-writing consumer
(and closes the queue first) exactly on the successful return path of
getFiles; on every error return (record-0 parse failure, directory-walk
failure, pipe-close failure) getFiles returns without closing the queue and
without waiting, so Collect can return while the consumer may still be
writing. -/
theorem C3_theorem (env : GetFilesEnv) (vh : VolumeHandler) (terms : List SearchTerm) :
    ((getFiles env vh terms).waited = true ↔ (getFiles env vh terms).result = none) ∧
    (getFiles env vh terms).closedChannel = (getFiles env vh terms).waited := by
  unfold getFiles
  rcases env.parseMFTRecord0 with e | r0
  · simp
  · simp only
    split
    · rcases env.findPossibleMatches (removeMftTerm terms).1 with e | ⟨pm, dt⟩
      · simp
      · by_cases hp : env.pipeCloseOk <;> simp [hp]
    · rcases env.findPossibleMatches (removeMftTerm terms).1 with e | ⟨pm, dt⟩ <;> simp

/-- Claim C9, as stated, is false on the code: the desired-access word that
GetHandle passes to CreateFile is 0x80000000 (GENERIC_READ, full data-read
access), not the attribute-only right FILE_READ_ATTRIBUTES (0x80) that the
adjacent source comment names.  The share-mode half of the claim is
accurate. -/
theorem C9_counterexample :
    (GetHandleRequest "C").dwDesiredAccess ≠ FILE_READ_ATTRIBUTES ∧
    (GetHandleRequest "C").dwDesiredAccess = GENERIC_READ := by
  constructor <;> decide

/-- Claim C9 (corrected): for every volume letter, GetHandle opens the
volume device node requesting GENERIC_READ access (0x80000000; the inline
source comment mislabels this constant as FILE_READ_ATTRIBUTES) together
with a share mode permitting concurrent read and write by other processes
(FILE_SHARE_READ bitwise-or FILE_SHARE_WRITE). -/
theorem C9_theorem (volumeLetter : String) :
    (GetHandleRequest volumeLetter).dwDesiredAccess = GENERIC_READ ∧
    (GetHandleRequest volumeLetter).dwShareMode = FILE_SHARE_READ ||| FILE_SHARE_WRITE :=
  ⟨rfl, rfl⟩

/-- When every expansion succeeds, resolveEnv returns the list with every
FullPath replaced by its expansion, all other fields untouched, and no
error. -/
theorem resolveEnv_of_success (expand : String → String × Option Err)
    (l : List FileToExport) (h : ∀ f ∈ l, (expand f.FullPath).2 = none) :
    resolveEnv expand l =
      (l.map fun f => { f with FullPath := (expand f.FullPath).1 }, none) := by
  induction l with
  | nil => rfl
  | cons e rest ih =>
    have he := h e (by simp)
    simp only [resolveEnv, he]
    rw [ih (fun g hg => h g (by simp [hg]))]
    simp

/-- Claim C1, as stated, is false on the code: in a run whose first request
fails environment expansion while the second request expands fine, Collect
returns the expansion error immediately and processes nothing; the
remaining request is not continued (no volume is ever opened). -/
theorem C1_counterexample :
    (envC1.expand "%BAD%:\\x").2 ≠ none ∧
    (envC1.expand "C:\\y").2 = none ∧
    (Collect envC1 listC1).error ≠ none ∧
    (Collect envC1 listC1).events = [] := by
  refine ⟨by decide, by decide, ?_, by decide⟩
  decide

/-- Claim C1 (corrected): an environment-expansion failure on any request
is fatal to the whole run, not to that request only: Collect returns the
wrapped expansion error immediately and no request at all is processed (no
volume is opened, nothing is enqueued). -/
theorem C1_theorem (env : CollectEnv) (l : List FileToExport) (e : Err)
    (h : (resolveEnv env.expand l).2 = some e) :
    (Collect env l).error = some e ∧ (Collect env l).events = [] := by
  simp [Collect, h]

/-- Witness for C1_theorem: the concrete failing run of C1_counterexample
satisfies the hypothesis, and the theorem applies to it. -/
theorem C1_witness :
    (Collect envC1 listC1).error =
      some "resolving environment variables from : cannot expand variable BAD" ∧
    (Collect envC1 listC1).events = [] :=
  C1_theorem envC1 listC1 _ (by decide)

/-- Claim C2, as stated, is false on the code: with volumes c and d both of
interest, d healthy, and only the open of c failing, Collect returns the
wrapped open error and never attempts volume d (no handle to d is ever
opened). -/
theorem C2_counterexample :
    identifyVolumesOfInterest listC2 = .ok ["c", "d"] ∧
    (envC2.volumeEnv "d").isFailure = false ∧
    (Collect envC2 listC2).error ≠ none ∧
    Event.openedHandle "d" ∉ (Collect envC2 listC2).events := by
  refine ⟨rfl, by decide, ?_, by decide⟩
  decide

/-- Claim C2 (corrected): failure either to open a volume of interest or to
read or parse its boot record is fatal to the whole run: the per-volume
loop returns the wrapped error at that volume, its trace contains only the
events of that failed GetVolumeHandler call, and the remaining volumes of
interest are not attempted. -/
theorem C2_theorem (env : CollectEnv) (terms : List SearchTerm) (letter : String)
    (rest : List String) (h : (env.volumeEnv letter).isFailure = true) :
    (collectVolumes env terms (letter :: rest)).2 ≠ none ∧
    (collectVolumes env terms (letter :: rest)).1 =
      (GetVolumeHandler (env.volumeEnv letter) letter).1 := by
  rcases ho : env.volumeEnv letter with e | e | e | vbr
  · simp [collectVolumes, GetVolumeHandler, ho]
  · simp [collectVolumes, GetVolumeHandler, ho]
  · simp [collectVolumes, GetVolumeHandler, ho]
  · rw [ho] at h
    simp [VolumeOutcome.isFailure] at h

/-- Witness for C2_theorem: the failing open of volume c in the concrete
environment of C2_counterexample satisfies the hypothesis, and volume d is
not attempted. -/
theorem C2_witness :
    (collectVolumes envC2 [] ["c", "d"]).2 ≠ none ∧
    (collectVolumes envC2 [] ["c", "d"]).1 =
      (GetVolumeHandler (envC2.volumeEnv "c") "c").1 :=
  C2_theorem envC2 [] "c" ["d"] (by decide)

/-- Claim C10 (confirmed): Collect mutates the export list through the
shared slice, and when every expansion succeeds the caller-visible list
after the expansion step has every FullPath replaced by its expansion while
IsFullPathRegex, FileName and IsFileNameRegex of every entry are unchanged
(the map below rebuilds each entry changing only FullPath).  This holds on
every return path of Collect after the expansion step. -/
theorem C10_theorem (env : CollectEnv) (l : List FileToExport)
    (h : ∀ f ∈ l, (env.expand f.FullPath).2 = none) :
    (Collect env l).exportListAfter =
      l.map fun f => { f with FullPath := (env.expand f.FullPath).1 } := by
  unfold Collect
  rw [resolveEnv_of_success env.expand l h]
  rcases hi : identifyVolumesOfInterest
      (l.map fun f => { f with FullPath := (env.expand f.FullPath).1 }) with e | vols <;>
    simp [hi]

/-- Witness for C10_theorem: a concrete two-entry list whose expansions
both succeed; the caller-visible list afterwards carries the expanded
paths with all other fields intact. -/
theorem C10_witness :
    (Collect
      ⟨fun s => (String.mk (s.data.filter (fun c => c ≠ '%')), none),
        fun _ => .ok vbrSample, fun _ => gfeOK⟩
      [⟨"%C%:\\$MFT", false, "$MFT", false⟩, ⟨"D:\\b", true, "b", true⟩]).exportListAfter =
      [⟨"C:\\$MFT", false, "$MFT", false⟩, ⟨"D:\\b", true, "b", true⟩] := by
  rw [C10_theorem _ _ (by decide)]
  decide

/-- Claim C6 (confirmed): on the successful walk path, getFiles returns no
error regardless of per-file API-open failures; the queue receives exactly
one entry per confirmed file, in order (the map over the confirmed files),
after the MFT entry when one is being copied; and whenever the API open of
a file fails for any reason, the entry's content source is the raw extent
reader over that file's own run list through the volume handle. -/
theorem C6_theorem (env : GetFilesEnv) (vh : VolumeHandler) (terms : List SearchTerm)
    (r0 : MftRecord0) (pm : PossibleMatches) (dt : DirectoryTree)
    (h1 : env.parseMFTRecord0 = .ok r0)
    (h2 : env.findPossibleMatches (removeMftTerm terms).1 = .ok (pm, dt))
    (h3 : env.pipeCloseOk = true) :
    (getFiles env vh terms).result = none ∧
    (getFiles env vh terms).queued =
      (if (removeMftTerm terms).2 then
        [⟨vh.volumeLetter ++ "__$mft", Reader.pipe (Reader.raw ⟨r0.dataRuns, "$mft"⟩)⟩]
      else []) ++
      (env.confirmFoundFiles (removeMftTerm terms).1 pm dt).map (queueEntryFor env) ∧
    ∀ file e, env.apiOpen file = .error e →
      queueEntryFor env file = ⟨file.fullPath, Reader.raw file⟩ := by
  refine ⟨?_, ?_, ?_⟩ <;>
    first
    | (intro file e he
       simp [queueEntryFor, he])
    | (unfold getFiles
       rw [h1]
       dsimp only
       by_cases hc : (removeMftTerm terms).2 <;>
         simp only [hc, if_true, if_false, Bool.false_eq_true] <;>
         rw [h2] <;>
         simp [h3, fileEntries])

/-- Witness for C6_theorem: two confirmed files on volume c, the first
refused by the API open; the run succeeds and queues the raw fallback for
the refused file and the API source for the other. -/
theorem C6_witness :
    (getFiles envC6 vhSample termsC6).result = none ∧
    (getFiles envC6 vhSample termsC6).queued =
      [⟨fileLocked.fullPath, Reader.raw fileLocked⟩,
        ⟨fileOpen.fullPath, Reader.api fileOpen⟩] ∧
    queueEntryFor envC6 fileLocked = ⟨fileLocked.fullPath, Reader.raw fileLocked⟩ := by
  obtain ⟨ha, hb, hc⟩ :=
    C6_theorem envC6 vhSample termsC6 ⟨[⟨4, 100⟩]⟩ ⟨["system", "ntuser.dat"]⟩ ⟨["c:\\"]⟩
      rfl rfl rfl
  refine ⟨ha, ?_, hc fileLocked "sharing violation" rfl⟩
  rw [hb]
  decide

/-- A list with an element satisfying p has a first index satisfying p. -/
theorem goFindIdx_isSome (p : SearchTerm → Bool) (l : List SearchTerm)
    (h : ∃ t ∈ l, p t) : ∃ i, goFindIdx p l = some i := by
  induction l with
  | nil => simp at h
  | cons t rest ih =>
    by_cases hp : p t
    · exact ⟨0, by simp [goFindIdx, hp]⟩
    · have hr : ∃ u ∈ rest, p u := by
        rcases h with ⟨u, hu, hpu⟩
        rcases List.mem_cons.mp hu with rfl | hu'
        · exact absurd hpu hp
        · exact ⟨u, hu', hpu⟩
      obtain ⟨i, hi⟩ := ih hr
      exact ⟨i + 1, by simp [goFindIdx, hp, hi]⟩

/-- The last element with a default does not depend on the default for a
non-empty list. -/
theorem getLastD_of_ne_nil {α : Type} (l : List α) (d e : α) (h : l ≠ []) :
    l.getLastD d = l.getLastD e := by
  cases l with
  | nil => exact absurd rfl h
  | cons a t => simp [List.getLastD_eq_getLast?, List.getLast?_cons]

/-- The swap-with-last-and-truncate removal deletes exactly one occurrence
of the MFT term: the count of matching terms drops by one. -/
theorem countP_removeMftTerm (l : List SearchTerm) (h : ∃ t ∈ l, mftTermPred t) :
    (removeMftTerm l).1.countP mftTermPred + 1 = l.countP mftTermPred := by
  induction l with
  | nil => simp at h
  | cons t rest ih =>
    by_cases hp : mftTermPred t
    · have hfi : goFindIdx mftTermPred (t :: rest) = some 0 := by
        simp [goFindIdx, hp]
      unfold removeMftTerm
      rw [hfi]
      dsimp only
      rcases List.eq_nil_or_concat rest with hrest | ⟨r, w, hrest⟩
      · subst hrest
        simp [List.countP_cons, hp]
      · rw [List.concat_eq_append] at hrest
        subst hrest
        have hv : (t :: (r ++ [w])).getLastD default = w := by
          rw [List.getLastD_cons]
          simp
        rw [hv]
        rw [show (t :: (r ++ [w])).set 0 w = w :: (r ++ [w]) from rfl]
        rw [show w :: (r ++ [w]) = (w :: r) ++ [w] by simp]
        rw [List.dropLast_concat]
        simp only [List.countP_cons, List.countP_append]
        by_cases hw : mftTermPred w <;> simp [hw, hp]
    · have hr : ∃ u ∈ rest, mftTermPred u := by
        rcases h with ⟨u, hu, hpu⟩
        rcases List.mem_cons.mp hu with rfl | hu'
        · exact absurd hpu hp
        · exact ⟨u, hu', hpu⟩
      have hne : rest ≠ [] := by
        rintro rfl
        simp at hr
      obtain ⟨i, hi⟩ := goFindIdx_isSome _ _ hr
      have hfi : goFindIdx mftTermPred (t :: rest) = some (i + 1) := by
        simp [goFindIdx, hp, hi]
      unfold removeMftTerm
      rw [hfi]
      dsimp only
      have hv : (t :: rest).getLastD default = rest.getLastD default := by
        rw [List.getLastD_cons]
        exact getLastD_of_ne_nil rest t default hne
      rw [hv]
      rw [show (t :: rest).set (i + 1) (rest.getLastD default) =
        t :: rest.set i (rest.getLastD default) from rfl]
      have hset_ne : rest.set i (rest.getLastD default) ≠ [] := by
        intro hh
        apply hne
        have hlen := congrArg List.length hh
        simp at hlen
        exact hlen
      rw [List.dropLast_cons_of_ne_nil hset_ne]
      have hih := ih hr
      unfold removeMftTerm at hih
      rw [hi] at hih
      dsimp only at hih
      simp only [List.countP_cons]
      rw [if_neg hp]
      omega

/-- Once the record-0 parse succeeds, the search-term slice handed to
findPossibleMatches is the output of the removal scan, on every branch of
getFiles. -/
theorem termsPassedToWalk_eq (env : GetFilesEnv) (vh : VolumeHandler)
    (terms : List SearchTerm) (r0 : MftRecord0) (h1 : env.parseMFTRecord0 = .ok r0) :
    (getFiles env vh terms).termsPassedToWalk = some (removeMftTerm terms).1 := by
  unfold getFiles
  rw [h1]
  dsimp only
  by_cases hc : (removeMftTerm terms).2 <;>
    simp only [hc, if_true, if_false, Bool.false_eq_true]
  · rcases env.findPossibleMatches (removeMftTerm terms).1 with e | ⟨pm, dt⟩
    · rfl
    · by_cases hp : env.pipeCloseOk <;> simp [hp]
  · rcases env.findPossibleMatches (removeMftTerm terms).1 with e | ⟨pm, dt⟩ <;> rfl

/-- Claim C7, as stated, is false on the code: the removal loop breaks
after relocating the first matching term, so a list with two MFT terms
still hands one MFT term to findPossibleMatches.  Concrete input: the
two-element list repeating the MFT term. -/
theorem C7_counterexample :
    mftTerm7.fileNameString = "$mft" ∧
    (getFiles gfeOK vhSample [mftTerm7, mftTerm7]).termsPassedToWalk = some [mftTerm7] := by
  exact ⟨rfl, by decide⟩

/-- Claim C7 (corrected): the scan removes exactly one occurrence of the
MFT term (the first, overwritten by the last slice element before the
truncation) before the walk: the count of MFT terms in the set passed to
findPossibleMatches is one less than in the input, and only when the input
holds a single MFT term does the walk receive none. -/
theorem C7_theorem (env : GetFilesEnv) (vh : VolumeHandler) (terms : List SearchTerm)
    (r0 : MftRecord0) (h1 : env.parseMFTRecord0 = .ok r0)
    (h2 : ∃ t ∈ terms, t.fileNameString = "$mft") :
    ∃ ks, (getFiles env vh terms).termsPassedToWalk = some ks ∧
      ks.countP mftTermPred + 1 = terms.countP mftTermPred ∧
      (terms.countP mftTermPred = 1 → ∀ t ∈ ks, t.fileNameString ≠ "$mft") := by
  have hex : ∃ t ∈ terms, mftTermPred t := by
    obtain ⟨t, ht, he⟩ := h2
    exact ⟨t, ht, by simp [mftTermPred, he]⟩
  refine ⟨(removeMftTerm terms).1, termsPassedToWalk_eq env vh terms r0 h1, ?_, ?_⟩
  · exact countP_removeMftTerm terms hex
  · intro hone t ht
    have hcnt := countP_removeMftTerm terms hex
    have hzero : (removeMftTerm terms).1.countP mftTermPred = 0 := by omega
    have := List.countP_eq_zero.mp hzero t ht
    simpa [mftTermPred] using this

/-- Witness for C7_theorem: a singleton MFT-term list on volume c; the walk
receives a list with no MFT term. -/
theorem C7_witness :
    ∃ ks, (getFiles gfeOK vhSample [mftTerm7]).termsPassedToWalk = some ks ∧
      ks.countP mftTermPred + 1 = [mftTerm7].countP mftTermPred ∧
      ([mftTerm7].countP mftTermPred = 1 → ∀ t ∈ ks, t.fileNameString ≠ "$mft") :=
  C7_theorem gfeOK vhSample [mftTerm7] ⟨[⟨4, 100⟩]⟩ rfl ⟨mftTerm7, by decide, rfl⟩

/-- Lowercasing fixes the colon. -/
theorem toLower_colon : Char.toLower ':' = ':' := by decide

set_option maxRecDepth 4000 in
/-- For each of the 52 drive letters, the lowercased character is not a
colon, is itself a letter, and is a single UTF-8 byte. -/
theorem driveLetter_toLower_facts :
    ∀ c ∈ driveLetters, Char.toLower c ≠ ':' ∧ (Char.toLower c).isAlpha = true ∧
      (Char.toLower c).utf8Size = 1 := by decide

/-- Decomposition of the drive-letter hypothesis. -/
theorem startsWith_decomp (s : String) (h : startsWithDriveLetter s = true) :
    ∃ c rest, s.data = c :: ':' :: rest ∧ c ∈ driveLetters := by
  unfold startsWithDriveLetter at h
  rcases hd : s.data with _ | ⟨c, _ | ⟨d, rest⟩⟩ <;> rw [hd] at h <;> simp at h
  obtain ⟨h1, h2⟩ := h
  subst h2
  exact ⟨c, rest, rfl, h1⟩

/-- On a path that begins with a letter-like character (any character whose
lowercasing is not a colon) followed by a colon, the volume key computed by
the Go code is exactly the lowercased first character. -/
theorem volKey_drive (s : String) (c : Char) (rest : List Char)
    (hs : s.data = c :: ':' :: rest) (hc : Char.toLower c ≠ ':') :
    volKey s = String.mk [Char.toLower c] := by
  unfold volKey
  rw [hs]
  simp only [List.map_cons, toLower_colon]
  unfold findNonColonRun
  rw [if_neg hc]
  simp [List.takeWhile_cons]

/-- isLetter on a single one-byte character returns its letter test. -/
theorem isLetter_single (d : Char) (h : d.utf8Size = 1) :
    isLetter (String.mk [d]) = .ok d.isAlpha := by
  unfold isLetter
  simp [utf8Len, h]

/-- When every entry passes the letter test, the loop of
identifyVolumesOfInterest is the fold of the tracking step. -/
theorem identifyAux_eq (l : List FileToExport)
    (h : ∀ f ∈ l, isLetter (volKey f.FullPath) = .ok true) (acc : List String) :
    identifyVolumesAux acc l = .ok (l.foldl trackVolume acc) := by
  induction l generalizing acc with
  | nil => rfl
  | cons f rest ih =>
    have hf := h f (by simp)
    unfold identifyVolumesAux
    rw [hf]
    dsimp only
    rw [List.foldl_cons]
    exact ih (fun g hg => h g (by simp [hg])) _

/-- Membership in the tracking fold: exactly the starting elements and the
volume keys of the processed entries. -/
theorem mem_foldl_trackVolume (l : List FileToExport) (acc : List String) (x : String) :
    x ∈ l.foldl trackVolume acc ↔ x ∈ acc ∨ ∃ f ∈ l, volKey f.FullPath = x := by
  induction l generalizing acc with
  | nil => simp
  | cons f rest ih =>
    rw [List.foldl_cons, ih]
    unfold trackVolume
    by_cases hm : volKey f.FullPath ∈ acc
    · rw [if_pos hm]
      constructor
      · rintro (hx | ⟨g, hg, hgx⟩)
        · exact Or.inl hx
        · exact Or.inr ⟨g, List.mem_cons_of_mem f hg, hgx⟩
      · rintro (hx | ⟨g, hg, hgx⟩)
        · exact Or.inl hx
        · rcases List.mem_cons.mp hg with rfl | hg'
          · exact Or.inl (hgx ▸ hm)
          · exact Or.inr ⟨g, hg', hgx⟩
    · rw [if_neg hm]
      constructor
      · rintro (hx | ⟨g, hg, hgx⟩)
        · rcases List.mem_append.mp hx with hx' | hx'
          · exact Or.inl hx'
          · exact Or.inr ⟨f, List.mem_cons_self f rest, (List.mem_singleton.mp hx').symm⟩
        · exact Or.inr ⟨g, List.mem_cons_of_mem f hg, hgx⟩
      · rintro (hx | ⟨g, hg, hgx⟩)
        · exact Or.inl (List.mem_append.mpr (Or.inl hx))
        · rcases List.mem_cons.mp hg with rfl | hg'
          · exact Or.inl (List.mem_append.mpr (Or.inr (List.mem_singleton.mpr hgx.symm)))
          · exact Or.inr ⟨g, hg', hgx⟩

/-- The tracking fold keeps the volume list free of duplicates. -/
theorem nodup_foldl_trackVolume (l : List FileToExport) (acc : List String)
    (h : acc.Nodup) : (l.foldl trackVolume acc).Nodup := by
  induction l generalizing acc with
  | nil => simpa
  | cons f rest ih =>
    rw [List.foldl_cons]
    unfold trackVolume
    by_cases hm : volKey f.FullPath ∈ acc
    · rw [if_pos hm]
      exact ih _ h
    · rw [if_neg hm]
      refine ih _ ?_
      simp [List.nodup_append, h, hm]

/-- Claim C8 (confirmed): when every request path begins with a single
drive letter followed by a colon, identifyVolumesOfInterest succeeds and
returns each distinct volume letter exactly once, comparing letters
case-insensitively: the returned list has no duplicates, every request's
volume key is present, every returned key is some request's volume key,
and the key of each request is precisely the lowercased drive letter. -/
theorem C8_theorem (l : List FileToExport)
    (h : ∀ f ∈ l, startsWithDriveLetter f.FullPath = true) :
    ∃ vs, identifyVolumesOfInterest l = .ok vs ∧ vs.Nodup ∧
      (∀ f ∈ l, volKey f.FullPath ∈ vs) ∧
      (∀ v ∈ vs, ∃ f ∈ l, volKey f.FullPath = v) ∧
      (∀ f ∈ l, ∀ c rest, f.FullPath.data = c :: ':' :: rest →
        volKey f.FullPath = String.mk [Char.toLower c]) := by
  have hkey : ∀ f ∈ l, isLetter (volKey f.FullPath) = .ok true := by
    intro f hf
    obtain ⟨c, rest, hdata, hcmem⟩ := startsWith_decomp _ (h f hf)
    obtain ⟨hne, halpha, hsize⟩ := driveLetter_toLower_facts c hcmem
    rw [volKey_drive f.FullPath c rest hdata hne, isLetter_single _ hsize, halpha]
  refine ⟨l.foldl trackVolume [], identifyAux_eq l hkey [],
    nodup_foldl_trackVolume l [] (by simp), ?_, ?_, ?_⟩
  · intro f hf
    rw [mem_foldl_trackVolume]
    exact Or.inr ⟨f, hf, rfl⟩
  · intro v hv
    rcases (mem_foldl_trackVolume l [] v).mp hv with hx | hx
    · simp at hx
    · exact hx
  · intro f hf c rest hdata
    obtain ⟨c', rest', hdata', hcmem⟩ := startsWith_decomp _ (h f hf)
    rw [hdata] at hdata'
    obtain ⟨rfl, -⟩ : c = c' ∧ (':' :: rest : List Char) = ':' :: rest' := by
      constructor
      · exact (List.cons.injEq ..).mp hdata' |>.1
      · exact (List.cons.injEq ..).mp hdata' |>.2
    obtain ⟨hne, -, -⟩ := driveLetter_toLower_facts c hcmem
    exact volKey_drive _ c rest hdata hne

/-- Witness for C8_theorem: three requests on volumes C, c and D (two of
them differing only in drive-letter case) all start with a drive letter,
and the theorem applies. -/
theorem C8_witness :
    (∀ f ∈ ([⟨"C:\\$MFT", false, "$MFT", false⟩, ⟨"c:\\Windows", false, "Windows", false⟩,
        ⟨"D:\\x", false, "x", false⟩] : List FileToExport),
      startsWithDriveLetter f.FullPath = true) ∧
    (∃ vs, identifyVolumesOfInterest
        [⟨"C:\\$MFT", false, "$MFT", false⟩, ⟨"c:\\Windows", false, "Windows", false⟩,
          ⟨"D:\\x", false, "x", false⟩] = .ok vs ∧ vs.Nodup ∧
      (∀ f ∈ ([⟨"C:\\$MFT", false, "$MFT", false⟩, ⟨"c:\\Windows", false, "Windows", false⟩,
          ⟨"D:\\x", false, "x", false⟩] : List FileToExport), volKey f.FullPath ∈ vs) ∧
      (∀ v ∈ vs, ∃ f ∈ ([⟨"C:\\$MFT", false, "$MFT", false⟩,
          ⟨"c:\\Windows", false, "Windows", false⟩,
          ⟨"D:\\x", false, "x", false⟩] : List FileToExport), volKey f.FullPath = v) ∧
      (∀ f ∈ ([⟨"C:\\$MFT", false, "$MFT", false⟩, ⟨"c:\\Windows", false, "Windows", false⟩,
          ⟨"D:\\x", false, "x", false⟩] : List FileToExport),
        ∀ c rest, f.FullPath.data = c :: ':' :: rest →
          volKey f.FullPath = String.mk [Char.toLower c])) :=
  ⟨by decide, C8_theorem _ (by decide)⟩

/-- Claim C5, as stated, is false on the code: in the concrete scenario the
single sink entry is named with the lowercased volume letter, c__$mft, not
C__$mft (identifyVolumesOfInterest lowercases the path before extracting
the volume letter, and getFiles builds the name from that letter). -/
theorem C5_counterexample :
    (sinkEntries (Collect envC5 listC5)).map FileReaderEntry.fullPath = ["c__$mft"] ∧
    ("c__$mft" : String) ≠ "C__$mft" := by
  exact ⟨by decide, by decide⟩

/-- Claim C5 (corrected): for the request with full path C:\$MFT and
filename $MFT on a volume whose MFT run list is the single run of length 4
clusters starting at cluster 100, with cluster size 4096, Collect succeeds
and produces exactly one sink entry, named c__$mft, whose content length is
exactly 16384 bytes. -/
theorem C5_theorem :
    (sinkEntries (Collect envC5 listC5)).map
        (fun e => (e.fullPath, contentLength vbrSample.clusterSize e.reader)) =
      [("c__$mft", some 16384)] ∧
    (Collect envC5 listC5).error = none := by
  exact ⟨by decide, by decide⟩

end WindowsCollector

